import Mathlib

/-!
Verification of `src/julia/examples-for-workflow-for-python-package-development.py`.

The file consists of a top-level script (two `np.random.randn(1000)` draws and a
`sp.stats.ttest_ind` call) and one function definition, `add_two`.  Python
integers are arbitrary precision, so `add_two` is embedded over `Int`; the
samples are real-valued sequences, embedded as `List ℝ`; the numpy random
stream is modelled as an abstract stream `ℕ → ℝ` with a position counter.
-/

set_option maxRecDepth 8000

open MeasureTheory

/-- Embedding of `def add_two(x: int) -> int: return x + 2`.  Python integers
are arbitrary precision, hence `Int`. -/
def add_two (x : Int) : Int := x + 2

/-- A Python global namespace, as touched by a function body: a finite map from
names to (integer) values.  `add_two`'s body reads and writes no global. -/
def Env : Type := String → Option Int

/-- State-passing embedding of a call to `add_two`: the body is the single
statement `return x + 2`, which reads no name other than the parameter `x`
and assigns nothing, so the namespace argument is threaded through unchanged. -/
def add_two_exec (x : Int) (env : Env) : Int × Env := (x + 2, env)

/-- Dynamic (runtime) Python values relevant to calling `add_two` off-type:
integers, floats (idealised as exact rationals; rounding is outside this
model) and strings. -/
inductive PyVal where
  | int : Int → PyVal
  | float : ℚ → PyVal
  | str : String → PyVal
deriving DecidableEq

/-- Python's binary `+` on dynamic values: numeric addition with int→float
promotion, string concatenation, and a `TypeError` on unsupported operand
types.  This is the semantics the body `x + 2` actually runs under, since
CPython does not enforce annotations. -/
def pyAdd : PyVal → PyVal → Except String PyVal
  | .int a, .int b => .ok (.int (a + b))
  | .float a, .int b => .ok (.float (a + (b : ℚ)))
  | .int a, .float b => .ok (.float ((a : ℚ) + b))
  | .float a, .float b => .ok (.float (a + b))
  | .str a, .str b => .ok (.str (a ++ b))
  | _, _ => .error "TypeError: unsupported operand types for +"

/-- `add_two` under Python's dynamic semantics: the annotation `x: int` is not
checked at runtime; the body evaluates `x + 2` with `2` an integer literal. -/
def add_two_dyn (x : PyVal) : Except String PyVal := pyAdd x (.int 2)

/-- The top-level script threaded through fallible library calls: the source
has no `try`/`except`, so each of the three statements

  `sample_a = np.random.randn(1000)`
  `sample_b = np.random.randn(1000)`
  `t_stat, p_value = sp.stats.ttest_ind(sample_a, sample_b)`

is run in sequence and any library fault aborts the remainder.  `randnE pos n`
draws `n` values from stream position `pos` (or faults); `ttestE` runs the
t-test (or faults). -/
def moduleRun (randnE : ℕ → ℕ → Except String (List ℝ × ℕ))
    (ttestE : List ℝ → List ℝ → Except String (ℝ × ℝ)) :
    Except String (List ℝ × List ℝ × ℝ × ℝ) := do
  let (sample_a, pos1) ← randnE 0 1000
  let (sample_b, _pos2) ← randnE pos1 1000
  let (t_stat, p_value) ← ttestE sample_a sample_b
  return (sample_a, sample_b, t_stat, p_value)

/-- Modelled from the spec: `np.random.randn n` — the sample generator is an
external collaborator whose contract, per §4.1 of the spec, is to produce `n`
draws from the random source.  The random source is an abstract stream
`g : ℕ → ℝ` read at a position counter: the call returns the next `n` stream
values and advances the position. -/
def randn (g : ℕ → ℝ) (pos n : ℕ) : List ℝ × ℕ :=
  (List.ofFn (fun i : Fin n => g (pos + i.val)), pos + n)

/-- Arithmetic mean of a sample. -/
noncomputable def mean (xs : List ℝ) : ℝ := xs.sum / xs.length

/-- Sample variance with one delta degree of freedom, as used by the pooled
two-sample t statistic. -/
noncomputable def svar (xs : List ℝ) : ℝ :=
  (xs.map (fun x => (x - mean xs) ^ 2)).sum / ((xs.length : ℝ) - 1)

/-- Modelled from the spec: the two-sample t statistic in its pooled-variance
(Student) form, the difference of the sample means over the pooled standard
error.  The spec leaves pooled vs Welch ambiguous (§9); the pooled form is
the default of the library being called. -/
noncomputable def tStatistic (a b : List ℝ) : ℝ :=
  let n : ℝ := a.length
  let m : ℝ := b.length
  let sp2 : ℝ := ((n - 1) * svar a + (m - 1) * svar b) / (n + m - 2)
  (mean a - mean b) / Real.sqrt (sp2 * (1 / n + 1 / m))

/-- Modelled from the spec: the p-value is the probability, under the null
distribution `μ` of the test statistic, of observing a statistic at least as
extreme (in absolute value) as the one computed.  The null distribution is a
parameter because the spec leaves it ambiguous (§9). -/
noncomputable def pvalue (μ : Measure ℝ) (t : ℝ) : ℝ :=
  (μ {s : ℝ | |t| ≤ |s|}).toReal

/-- Modelled from the spec: `sp.stats.ttest_ind` returns exactly two scalar
outputs, the test statistic and its p-value. -/
noncomputable def ttest_ind (μ : Measure ℝ) (a b : List ℝ) : ℝ × ℝ :=
  (tStatistic a b, pvalue μ (tStatistic a b))

/-- Observable events of one run of the top-level script: library calls and
printed output. -/
inductive Event where
  | randnCall (n : ℕ)
  | ttestCall (a b : List ℝ)
  | printed (s : String)

/-- Recogniser for t-test call events. -/
def Event.isTtest : Event → Bool
  | .ttestCall _ _ => true
  | _ => false

/-- Recogniser for printed-output events. -/
def Event.isPrinted : Event → Bool
  | .printed _ => true
  | _ => false

/-- Recogniser for `randn` call events. -/
def Event.isRandn : Event → Bool
  | .randnCall _ => true
  | _ => false

/-- The four top-level bindings of the script. -/
structure ScriptResult where
  sample_a : List ℝ
  sample_b : List ℝ
  t_stat : ℝ
  p_value : ℝ

/-- The top-level script, statement by statement, parametrised by the t-test
implementation `tt` and the random stream `g`.  Alongside the final bindings
it records the trace of observable events, one per executed library call; the
source contains no print statement, so no `printed` event occurs. -/
def scriptWith (tt : List ℝ → List ℝ → ℝ × ℝ) (g : ℕ → ℝ) :
    ScriptResult × List Event :=
  let (sample_a, pos1) := randn g 0 1000
  let (sample_b, _pos2) := randn g pos1 1000
  let (t_stat, p_value) := tt sample_a sample_b
  (⟨sample_a, sample_b, t_stat, p_value⟩,
    [Event.randnCall 1000, Event.randnCall 1000,
      Event.ttestCall sample_a sample_b])

/-- The script as written, with the spec-modelled t-test against null
distribution `μ`. -/
noncomputable def script (μ : Measure ℝ) (g : ℕ → ℝ) :
    ScriptResult × List Event :=
  scriptWith (ttest_ind μ) g

/-- Reduction of `>>=` on a successful `Except` value. -/
theorem exceptBind_ok {α β : Type} (a : α) (f : α → Except String β) :
    (Except.ok a >>= f) = f a := rfl

/-- Reduction of `>>=` on a failed `Except` value. -/
theorem exceptBind_error {α β : Type} (e : String) (f : α → Except String β) :
    ((Except.error e : Except String α) >>= f) = Except.error e := rfl

/-- **C1.** For every integer `x`, `add_two x` returns `x + 2`. -/
theorem add_two_spec (x : Int) : add_two x = x + 2 := rfl

/-- **C2.** On the documented docstring example, `add_two 10 = 12`. -/
theorem add_two_example : add_two 10 = 12 := rfl

/-- **C5.** `add_two` is pure: a call's value does not depend on the ambient
namespace (any two evaluations at the same argument agree), the call leaves
the namespace unchanged (no side effects), and the value returned is the one
computed by the pure function. -/
theorem add_two_pure (x : Int) (env1 env2 : Env) :
    (add_two_exec x env1).1 = (add_two_exec x env2).1 ∧
    (add_two_exec x env1).2 = env1 ∧
    (add_two_exec x env1).1 = add_two x :=
  ⟨rfl, rfl, rfl⟩

/-- **C6.** No validation and no error handling anywhere: `add_two` never
faults on an integer argument (it returns `.ok (x + 2)` for every `x`), and a
fault in any of the three library calls of the top-level script propagates
uncaught: a fault in the first `randn` aborts the script with that very error,
as does a fault in the second `randn` or in the t-test once the earlier calls
succeeded. -/
theorem no_error_handling :
    (∀ n : Int, add_two_dyn (.int n) = .ok (.int (n + 2))) ∧
    (∀ randnE ttestE e, randnE 0 1000 = .error e →
      moduleRun randnE ttestE = .error e) ∧
    (∀ randnE ttestE a p1 e, randnE 0 1000 = .ok (a, p1) →
      randnE p1 1000 = .error e →
      moduleRun randnE ttestE = .error e) ∧
    (∀ randnE ttestE a p1 b p2 e, randnE 0 1000 = .ok (a, p1) →
      randnE p1 1000 = .ok (b, p2) → ttestE a b = .error e →
      moduleRun randnE ttestE = .error e) := by
  refine ⟨fun n => rfl, fun randnE ttestE e h => ?_,
    fun randnE ttestE a p1 e h1 h2 => ?_,
    fun randnE ttestE a p1 b p2 e h1 h2 h3 => ?_⟩
  · simp only [moduleRun, h, exceptBind_error]
  · simp only [moduleRun, h1, exceptBind_ok, h2, exceptBind_error]
  · simp only [moduleRun, h1, exceptBind_ok, h2, h3, exceptBind_error]

/-- Witness for C6: with a first draw that faults the script faults with the
same error, and with succeeding draws but a faulting t-test the script faults
with the t-test's error. -/
theorem no_error_handling_witness :
    moduleRun (fun _ _ => .error "randn fault") (fun _ _ => .error "t fault") =
      .error "randn fault" ∧
    moduleRun (fun pos n => .ok (List.replicate n 0, pos + n))
      (fun _ _ => .error "t fault") = .error "t fault" :=
  ⟨no_error_handling.2.1 _ _ "randn fault" rfl,
   no_error_handling.2.2.2 _ _ (List.replicate 1000 0) 1000
     (List.replicate 1000 0) 2000 "t fault" rfl rfl rfl⟩

/-- **C9.** `add_two` is exact at every magnitude: over arbitrary-precision
integers the result is the mathematical `x + 2`, it is strictly above `x`
(a wraparound at some word width would drop below), and in particular it
stays exact just past any power-of-two boundary `2^w - 1`. -/
theorem add_two_no_overflow (x : Int) (w : ℕ) :
    add_two x = x + 2 ∧ x < add_two x ∧ add_two (2 ^ w - 1) = 2 ^ w + 1 := by
  refine ⟨rfl, ?_, ?_⟩
  · simp [add_two]
  · show (2 ^ w - 1 : Int) + 2 = 2 ^ w + 1
    ring

/-- **C10.** The `int` annotation is not enforced: for every float argument
`q`, `add_two` returns the float `q + 2` without raising, instead of rejecting
the value as outside the annotated integer signature. -/
theorem add_two_accepts_float (q : ℚ) :
    add_two_dyn (.float q) = .ok (.float (q + 2)) := rfl

/-- **C3.** Every run of the script draws exactly two samples (two `randn`
call events in the trace, every one of length 1000) and each bound sample is
a sequence of exactly 1000 values.  The distribution of the drawn values is a
property of the external random source, here the abstract stream `g`. -/
theorem script_two_samples (μ : Measure ℝ) (g : ℕ → ℝ) :
    (script μ g).1.sample_a.length = 1000 ∧
    (script μ g).1.sample_b.length = 1000 ∧
    (script μ g).2.countP Event.isRandn = 2 ∧
    ∀ n, Event.randnCall n ∈ (script μ g).2 → n = 1000 := by
  refine ⟨?_, ?_, rfl, ?_⟩
  · simp only [script, scriptWith, randn, List.length_ofFn]
  · simp only [script, scriptWith, randn, List.length_ofFn]
  · intro n hn
    simp only [script, scriptWith, randn, List.mem_cons, List.not_mem_nil,
      or_false, Event.randnCall.injEq] at hn
    rcases hn with h | h | h
    · exact h
    · exact h
    · exact absurd h (by intro hc; cases hc)

/-- **C4.** For every pair of length-1000 input sequences and every
probability distribution for the null statistic, the t-test call returns
exactly the pair of the test statistic and its p-value, and the p-value lies
in the closed interval [0, 1]. -/
theorem ttest_ind_shape (μ : Measure ℝ) [IsProbabilityMeasure μ]
    (a b : List ℝ) (ha : a.length = 1000) (hb : b.length = 1000) :
    ttest_ind μ a b = (tStatistic a b, pvalue μ (tStatistic a b)) ∧
    0 ≤ (ttest_ind μ a b).2 ∧ (ttest_ind μ a b).2 ≤ 1 := by
  refine ⟨rfl, ENNReal.toReal_nonneg, ?_⟩
  have h : μ {s : ℝ | |tStatistic a b| ≤ |s|} ≤ 1 := prob_le_one
  calc (ttest_ind μ a b).2
      = (μ {s : ℝ | |tStatistic a b| ≤ |s|}).toReal := rfl
    _ ≤ (1 : ENNReal).toReal := ENNReal.toReal_mono ENNReal.one_ne_top h
    _ = 1 := by simp

/-- Witness for C4 at the all-zero length-1000 samples and the Dirac null
distribution. -/
theorem ttest_ind_shape_witness :
    ttest_ind (Measure.dirac 0) (List.replicate 1000 (0 : ℝ))
        (List.replicate 1000 (0 : ℝ)) =
      (tStatistic (List.replicate 1000 (0 : ℝ)) (List.replicate 1000 (0 : ℝ)),
        pvalue (Measure.dirac 0)
          (tStatistic (List.replicate 1000 (0 : ℝ))
            (List.replicate 1000 (0 : ℝ)))) ∧
    0 ≤ (ttest_ind (Measure.dirac 0) (List.replicate 1000 (0 : ℝ))
        (List.replicate 1000 (0 : ℝ))).2 ∧
    (ttest_ind (Measure.dirac 0) (List.replicate 1000 (0 : ℝ))
        (List.replicate 1000 (0 : ℝ))).2 ≤ 1 :=
  ttest_ind_shape (Measure.dirac 0) (List.replicate 1000 (0 : ℝ))
    (List.replicate 1000 (0 : ℝ)) (by simp) (by simp)

/-- **C7.** The statistic/p-value pair is computed exactly once (a single
t-test call event in the trace) and consumed by nothing afterwards: the
script prints nothing, and everything in the run other than the two bound
scalars — the samples and the entire observable event trace — is unchanged
when the t-test implementation returns different scalars. -/
theorem t_stat_p_value_unused (tt1 tt2 : List ℝ → List ℝ → ℝ × ℝ)
    (g : ℕ → ℝ) :
    (scriptWith tt1 g).2.countP Event.isTtest = 1 ∧
    (scriptWith tt1 g).2.countP Event.isPrinted = 0 ∧
    (scriptWith tt1 g).1.sample_a = (scriptWith tt2 g).1.sample_a ∧
    (scriptWith tt1 g).1.sample_b = (scriptWith tt2 g).1.sample_b ∧
    (scriptWith tt1 g).2 = (scriptWith tt2 g).2 :=
  ⟨rfl, rfl, rfl, rfl, rfl⟩

/-- An RNG stream that is constantly zero. -/
def zeroStream : ℕ → ℝ := fun _ => 0

/-- An RNG stream with a single unit spike at position 0 and zero elsewhere. -/
def spikeStream : ℕ → ℝ := fun n => if n = 0 then 1 else 0

/-- The first sample the script draws from `spikeStream`. -/
def spikeA : List ℝ := (randn spikeStream 0 1000).1

/-- The second sample the script draws from `spikeStream`. -/
def spikeB : List ℝ := (randn spikeStream (randn spikeStream 0 1000).2 1000).1

/-- `spikeA`, unfolded to its `ofFn` form. -/
theorem spikeA_ofFn :
    spikeA = List.ofFn (fun i : Fin 1000 => spikeStream (0 + i.val)) := by
  simp only [spikeA, randn]

/-- `spikeB`, unfolded to its `ofFn` form. -/
theorem spikeB_ofFn :
    spikeB = List.ofFn (fun i : Fin 1000 => spikeStream (0 + 1000 + i.val)) := by
  simp only [spikeB, randn]

/-- The second spike-stream sample is all zeros: the spike sits at position 0,
before the second sample's window. -/
theorem spikeB_zero : spikeB = List.ofFn (fun _ : Fin 1000 => (0 : ℝ)) := by
  rw [spikeB_ofFn]
  refine congrArg List.ofFn (funext fun i => ?_)
  have h : 0 + 1000 + i.val ≠ 0 := by omega
  simp [spikeStream, h]

/-- The entries of the first spike-stream sample, as an indicator of the
index 0. -/
theorem spikeA_fun_eq :
    (fun i : Fin 1000 => spikeStream (0 + i.val))
      = fun i : Fin 1000 => if i = 0 then (1 : ℝ) else 0 := by
  funext i
  have hv0 : (0 : Fin 1000).val = 0 := rfl
  by_cases h : i = 0
  · subst h
    simp [spikeStream]
  · have hval : i.val ≠ 0 := fun hc => h (Fin.ext (by rw [hv0]; exact hc))
    simp [spikeStream, h, hval]

/-- The first spike-stream sample sums to 1. -/
theorem spikeA_sum : spikeA.sum = 1 := by
  rw [spikeA_ofFn, List.sum_ofFn, spikeA_fun_eq]
  simp [Fintype.sum_ite_eq']

/-- The first spike-stream sample has 1000 entries. -/
theorem spikeA_length : spikeA.length = 1000 := by
  rw [spikeA_ofFn]
  exact List.length_ofFn _

/-- Mean of the first spike-stream sample. -/
theorem spikeA_mean : mean spikeA = 1 / 1000 := by
  unfold mean
  rw [spikeA_sum, spikeA_length]
  norm_num

/-- Mean of the all-zero length-1000 sample. -/
theorem zero_ofFn_mean : mean (List.ofFn (fun _ : Fin 1000 => (0 : ℝ))) = 0 := by
  unfold mean
  rw [List.sum_ofFn]
  simp

/-- Sample variance of the all-zero length-1000 sample. -/
theorem zero_ofFn_svar : svar (List.ofFn (fun _ : Fin 1000 => (0 : ℝ))) = 0 := by
  unfold svar
  rw [zero_ofFn_mean, List.map_ofFn, List.sum_ofFn]
  simp [Function.comp]

/-- The first spike-stream sample has strictly positive sample variance. -/
theorem spikeA_svar_pos : 0 < svar spikeA := by
  unfold svar
  rw [spikeA_mean, spikeA_length, spikeA_ofFn, List.map_ofFn, List.sum_ofFn]
  have hfun : ((fun x : ℝ => (x - 1 / 1000) ^ 2) ∘
        fun i : Fin 1000 => spikeStream (0 + i.val))
      = fun i : Fin 1000 => (spikeStream (0 + i.val) - 1 / 1000) ^ 2 := rfl
  rw [hfun]
  refine div_pos ?_ (by norm_num)
  refine lt_of_lt_of_le ?_
    (Finset.single_le_sum (fun j hj => sq_nonneg _) (Finset.mem_univ (0 : Fin 1000)))
  have hs0 : spikeStream (0 + (0 : Fin 1000).val) = 1 := rfl
  rw [hs0]
  norm_num

/-- The t statistic of a sample against itself vanishes. -/
theorem tStatistic_self (x : List ℝ) : tStatistic x x = 0 := by
  simp [tStatistic]

/-- The t statistic of the two spike-stream samples is strictly positive. -/
theorem spike_tStat_pos : 0 < tStatistic spikeA spikeB := by
  have hsvar := spikeA_svar_pos
  simp only [tStatistic]
  rw [spikeB_zero, spikeA_mean, zero_ofFn_mean, zero_ofFn_svar, spikeA_length,
    List.length_ofFn]
  refine div_pos (by norm_num) (Real.sqrt_pos.mpr ?_)
  push_cast
  nlinarith [hsvar]

/-- The first sample bound by the script, as a function of the stream. -/
theorem script_sample_a_eq (μ : Measure ℝ) (g : ℕ → ℝ) :
    (script μ g).1.sample_a
      = List.ofFn (fun i : Fin 1000 => g (0 + i.val)) := by
  simp only [script, scriptWith, randn]

/-- The test statistic bound by the script, as a function of the stream. -/
theorem script_t_stat_eq (μ : Measure ℝ) (g : ℕ → ℝ) :
    (script μ g).1.t_stat
      = tStatistic (List.ofFn (fun i : Fin 1000 => g (0 + i.val)))
          (List.ofFn (fun i : Fin 1000 => g (0 + 1000 + i.val))) := by
  simp only [script, scriptWith, randn, ttest_ind]

/-- **C8.** The sampling/t-test computation is not deterministic across runs:
with the unseeded RNG state as implicit input, there are two streams on which
the script binds different samples and a different test statistic, so the
whole collection of bound values differs between the two executions —
whatever null distribution the p-value is taken against. -/
theorem script_not_reproducible (μ : Measure ℝ) :
    ∃ g1 g2 : ℕ → ℝ,
      (script μ g1).1.sample_a ≠ (script μ g2).1.sample_a ∧
      (script μ g1).1.t_stat ≠ (script μ g2).1.t_stat ∧
      script μ g1 ≠ script μ g2 := by
  have hsa : (script μ zeroStream).1.sample_a
      ≠ (script μ spikeStream).1.sample_a := by
    rw [script_sample_a_eq, script_sample_a_eq]
    intro h
    have h0 := congrFun (List.ofFn_inj.mp h) 0
    have hz : zeroStream (0 + (0 : Fin 1000).val) = 0 := rfl
    have hs : spikeStream (0 + (0 : Fin 1000).val) = 1 := rfl
    rw [hz, hs] at h0
    exact absurd h0 (by norm_num)
  have hts : (script μ zeroStream).1.t_stat
      ≠ (script μ spikeStream).1.t_stat := by
    rw [script_t_stat_eq, script_t_stat_eq]
    have h1 : tStatistic (List.ofFn (fun i : Fin 1000 => zeroStream (0 + i.val)))
        (List.ofFn (fun i : Fin 1000 => zeroStream (0 + 1000 + i.val))) = 0 := by
      have e : List.ofFn (fun i : Fin 1000 => zeroStream (0 + 1000 + i.val))
          = List.ofFn (fun i : Fin 1000 => zeroStream (0 + i.val)) := rfl
      rw [e, tStatistic_self]
    rw [h1, ← spikeA_ofFn, ← spikeB_ofFn]
    exact (ne_of_gt spike_tStat_pos).symm
  exact ⟨zeroStream, spikeStream, hsa, hts,
    fun h => hsa (congrArg (fun r => r.1.sample_a) h)⟩
